import Mathlib

/-!
Shallow embedding of two source files of the terraform-provider-aws
repository and proofs about them:

* the `elasticsearch` service package (registry declarations and the
  `NewClient` constructor with its endpoint / FIPS override logic);
* the `datazone` Project resource (schema data record, the Create / Read /
  Update / Delete / ImportState lifecycle handlers, the wait
  configurations `waitProjectCreated` / `waitProjectUpdated` /
  `waitProjectDeleted`, and the poll helpers `statusProject` /
  `findProjectByID`).

Remote API calls are modelled as oracle functions supplied in an
environment record: each lifecycle handler becomes a pure function of the
plan/state records and the scripted outcomes of the calls it makes, and
returns the diagnostics it raised, the request values it sent, and the
state it stored.  Functions of the repository that are not part of the
given sources (the `create`, `tfresource` and framework timeout helpers)
are modelled from the specification and marked as such in their doc
comments.
-/

namespace datazone

/-- Terraform framework `types.String`: a string attribute value is null,
unknown, or a known string. -/
inductive TString where
  | null
  | unknown
  | value (s : String)
deriving DecidableEq, Repr

/-- Go `types.String.ValueString()`: the known value, or `""` for null and
unknown values. -/
def TString.valueString : TString → String
  | .value s => s
  | _ => ""

/-- Go `types.String.IsNull()`. -/
def TString.isNull : TString → Bool
  | .null => true
  | _ => false

/-- Go `types.String.ValueStringPointer()`: nil exactly for a null value;
an unknown value yields a pointer to the zero string. -/
def TString.valueStringPointer : TString → Option String
  | .null => none
  | .unknown => some ""
  | .value s => some s

/-- Go `types.String.String()`, used for the resource name shown in
diagnostics. -/
def TString.goString : TString → String
  | .null => "<null>"
  | .unknown => "<unknown>"
  | .value s => "\"" ++ s ++ "\""

/-- Terraform framework `types.Bool`. -/
inductive TBool where
  | null
  | unknown
  | value (b : Bool)
deriving DecidableEq, Repr

/-- Go `types.Bool.IsNull()`. -/
def TBool.isNull : TBool → Bool
  | .null => true
  | _ => false

/-- Go `types.Bool.ValueBoolPointer()`. -/
def TBool.valueBoolPointer : TBool → Option Bool
  | .null => none
  | .unknown => some false
  | .value b => some b

/-- Terraform framework `fwtypes.ListValueOf[types.String]` (the
`glossary_terms` attribute): null, unknown, or a list of string values.
Go `reflect.DeepEqual` on two such values is structural equality. -/
inductive TStringList where
  | null
  | unknown
  | value (xs : List TString)
deriving DecidableEq, Repr

/-- Go `fwtypes.ListValueOf.IsNull()`. -/
def TStringList.isNull : TStringList → Bool
  | .null => true
  | _ => false

/-- Go `aws.ToStringSlice(flex.ExpandFrameworkStringList(ctx, l))`: a null
or unknown list expands to the nil slice, a known list to its element
values (nil element pointers read back as the zero string). -/
def expandFrameworkStringList : TStringList → Option (List String)
  | .value xs => some (xs.map TString.valueString)
  | _ => none

/-- Terraform framework `fwtypes.ListNestedObjectValueOf` of the
`dsProjectDeletionError` nested object (code and message strings). -/
inductive TFailures where
  | null
  | unknown
  | value (xs : List (String × String))
deriving DecidableEq, Repr

/-- Errors returned by the remote DataZone API and by the poll helpers.
`resourceNotFound` and `accessDenied` are the SDK exception types the
resource inspects with `errs.IsA`; `notFoundWrapped` is the
`retry.NotFoundError` that `findProjectByID` wraps a not-found SDK error
into; `emptyResult` is `tfresource.NewEmptyResultError`; `other` is any
other error.  The string is the text `err.Error()` reports. -/
inductive ApiError where
  | resourceNotFound (msg : String)
  | accessDenied (msg : String)
  | notFoundWrapped (msg : String)
  | emptyResult (msg : String)
  | other (msg : String)
deriving DecidableEq, Repr

/-- Go `err.Error()`. -/
def ApiError.message : ApiError → String
  | .resourceNotFound m => m
  | .accessDenied m => m
  | .notFoundWrapped m => m
  | .emptyResult m => m
  | .other m => m

/-- Go `errs.IsA[*awstypes.ResourceNotFoundException](err)`. -/
def ApiError.isResourceNotFound : ApiError → Bool
  | .resourceNotFound _ => true
  | _ => false

/-- Go `errs.IsA[*awstypes.AccessDeniedException](err)`. -/
def ApiError.isAccessDenied : ApiError → Bool
  | .accessDenied _ => true
  | _ => false

/-- Modelled from the spec: `tfresource.NotFound` (its code is not among
the given sources) recognises the errors that report the remote object as
absent: the SDK not-found exception and the not-found wrapper raised by
the finders. -/
def ApiError.notFound : ApiError → Bool
  | .resourceNotFound _ => true
  | .notFoundWrapped _ => true
  | _ => false

/-- A diagnostic raised with `resp.Diagnostics.AddError(summary, detail)`. -/
structure Diag where
  summary : String
  detail : String
deriving DecidableEq, Repr

/-- Modelled from the spec: `create.ProblemStandardMessage` (its code is
not among the given sources) builds the standardised
"action failed for resource X" summary; a non-nil error has its text
appended. -/
def problemStandardMessage (action resName id : String) (err : Option String) : String :=
  match err with
  | none => action ++ " DataZone " ++ resName ++ " (" ++ id ++ ")"
  | some e => action ++ " DataZone " ++ resName ++ " (" ++ id ++ "): " ++ e

/-- Modelled from the spec: the `create.ErrAction...` constants name the
failed action in the standardised diagnostic summary. -/
def ErrActionCreating : String := "creating"

def ErrActionSetting : String := "setting"

def ErrActionUpdating : String := "updating"

def ErrActionDeleting : String := "deleting"

def ErrActionWaitingForCreation : String := "waiting for creation"

def ErrActionWaitingForUpdate : String := "waiting for update"

def ErrActionWaitingForDeletion : String := "waiting for deletion"

/-- Go constant `ResNameProject`. -/
def ResNameProject : String := "Project"

/-- Go `datazone.GetDomainInput`. -/
structure GetDomainInput where
  identifier : Option String
deriving DecidableEq, Repr

/-- Go `datazone.CreateProjectInput` (nil pointer fields are `none`). -/
structure CreateProjectInput where
  name : Option String
  description : Option String
  domainIdentifier : Option String
  glossaryTerms : Option (List String)
deriving DecidableEq, Repr

/-- Go `datazone.GetProjectInput`. -/
structure GetProjectInput where
  domainIdentifier : Option String
  identifier : Option String
deriving DecidableEq, Repr

/-- Go `datazone.UpdateProjectInput`. -/
structure UpdateProjectInput where
  domainIdentifier : Option String
  identifier : Option String
  description : Option String
  glossaryTerms : Option (List String)
  name : Option String
deriving DecidableEq, Repr

/-- Go `datazone.DeleteProjectInput`. -/
structure DeleteProjectInput where
  domainIdentifier : Option String
  identifier : Option String
  skipDeletionCheck : Option Bool
deriving DecidableEq, Repr

/-- The fields shared by Go `datazone.CreateProjectOutput` and
`datazone.GetProjectOutput` (the two SDK types carry the same fields).
`projectStatus` is a value-typed enum string whose zero value is `""`;
the other fields are pointers or slices whose nil is `none`. -/
structure ProjectOutput where
  createdAt : Option String
  createdBy : Option String
  description : Option String
  domainId : Option String
  failureReasons : Option (List (String × String))
  glossaryTerms : Option (List String)
  id : Option String
  lastUpdatedAt : Option String
  name : Option String
  projectStatus : String
deriving DecidableEq, Repr

/-- The resolved `timeouts` block of a plan or state record: a configured
duration (nanoseconds) per operation, or none. -/
structure TimeoutsValue where
  create : Option Int
  update : Option Int
  delete : Option Int
deriving DecidableEq, Repr

/-- Go struct `resourceProjectData`: the declared attributes of the
`aws_datazone_project` resource. -/
structure resourceProjectData where
  description : TString
  domainId : TString
  name : TString
  createdBy : TString
  id : TString
  createdAt : TString
  failureReasons : TFailures
  lastUpdatedAt : TString
  projectStatus : TString
  timeouts : TimeoutsValue
  skipDeletionCheck : TBool
  glossaryTerms : TStringList
deriving DecidableEq, Repr

/-- Go `awstypes.ProjectStatusActive`. -/
def ProjectStatusActive : String := "ACTIVE"

/-- Go `awstypes.ProjectStatusDeleting`. -/
def ProjectStatusDeleting : String := "DELETING"

/-- Go `time.Minute` in nanoseconds. -/
def timeMinute : Int := 60 * 1000000000

/-- The timeout defaults `newResourceProject` registers on the resource. -/
structure resourceProject where
  defaultCreateTimeout : Int
  defaultUpdateTimeout : Int
  defaultDeleteTimeout : Int
deriving DecidableEq, Repr

/-- Go `newResourceProject`: registers a 3 minute create, 30 minute update
and 3 minute delete default timeout. -/
def newResourceProject : resourceProject :=
  { defaultCreateTimeout := 3 * timeMinute
    defaultUpdateTimeout := 30 * timeMinute
    defaultDeleteTimeout := 3 * timeMinute }

/-- Modelled from the spec: `framework.WithTimeouts.CreateTimeout` (its
code is not among the given sources) resolves the operation timeout to the
configured value or the registered default. -/
def resourceProject.CreateTimeout (r : resourceProject) (t : TimeoutsValue) : Int :=
  t.create.getD r.defaultCreateTimeout

/-- Modelled from the spec: `framework.WithTimeouts.UpdateTimeout`, as for
`CreateTimeout`. -/
def resourceProject.UpdateTimeout (r : resourceProject) (t : TimeoutsValue) : Int :=
  t.update.getD r.defaultUpdateTimeout

/-- Modelled from the spec: `framework.WithTimeouts.DeleteTimeout`, as for
`CreateTimeout`. -/
def resourceProject.DeleteTimeout (r : resourceProject) (t : TimeoutsValue) : Int :=
  t.delete.getD r.defaultDeleteTimeout

/-- The data fields of Go `retry.StateChangeConf` as the wait helpers fill
them (the `Refresh` closure, `statusProject` for all three waits, is kept
separate). -/
structure StateChangeConf where
  pending : List String
  target : List String
  timeout : Int
  notFoundChecks : Nat
  continuousTargetOccurence : Nat
deriving DecidableEq, Repr

/-- The scripted outcomes of the remote calls one lifecycle invocation
makes: the five DataZone API operations the resource uses, plus the
outcome of the external `retry.StateChangeConf.WaitForStateContext` poll
(keyed by the configuration and the domain/identifier the refresh closure
captures). -/
structure Env where
  getDomain : GetDomainInput → Except ApiError Unit
  createProject : CreateProjectInput → Except ApiError (Option ProjectOutput)
  getProject : GetProjectInput → Except ApiError (Option ProjectOutput)
  updateProject : UpdateProjectInput → Except ApiError (Option ProjectOutput)
  deleteProject : DeleteProjectInput → Except ApiError Unit
  wait : StateChangeConf → String → String → Except ApiError Unit

/-- Go `findProjectByID`: issue `GetProject`; wrap a not-found SDK error
in a `retry.NotFoundError`; convert a nil response or a response with a
non-nil `FailureReasons` field to an empty-result error; otherwise return
the response. -/
def findProjectByID (env : Env) (domain identifier : String) : Except ApiError ProjectOutput :=
  let inp : GetProjectInput := { domainIdentifier := some domain, identifier := some identifier }
  match env.getProject inp with
  | .error e =>
      if e.isResourceNotFound then .error (.notFoundWrapped e.message) else .error e
  | .ok none => .error (.emptyResult "empty result")
  | .ok (some out) =>
      if ¬(out.failureReasons = none) then .error (.emptyResult "empty result")
      else .ok out

/-- The value a `retry.StateRefreshFunc` returns: the fetched object (or
nil), the status string, and the error (or nil). -/
structure RefreshResult where
  obj : Option ProjectOutput
  status : String
  err : Option ApiError
deriving DecidableEq, Repr

/-- Go `statusProject`: call `findProjectByID`; a not-found error becomes
the absent result (nil object, empty status, nil error); any other error
is passed through; otherwise the object and its status string are
reported. -/
def statusProject (env : Env) (domain identifier : String) : RefreshResult :=
  match findProjectByID env domain identifier with
  | .error e => if e.notFound then ⟨none, "", none⟩ else ⟨none, "", some e⟩
  | .ok out => ⟨some out, out.projectStatus, none⟩

/-- Go `waitProjectCreated`: the `retry.StateChangeConf` it builds, as a
function of the timeout argument. -/
def waitProjectCreatedConf (timeout : Int) : StateChangeConf :=
  { pending := []
    target := [ProjectStatusActive]
    timeout := timeout
    notFoundChecks := 20
    continuousTargetOccurence := 2 }

/-- Go `waitProjectUpdated`: the `retry.StateChangeConf` it builds. -/
def waitProjectUpdatedConf (timeout : Int) : StateChangeConf :=
  { pending := []
    target := [ProjectStatusActive]
    timeout := timeout
    notFoundChecks := 20
    continuousTargetOccurence := 2 }

/-- Go `waitProjectDeleted`: the `retry.StateChangeConf` it builds; the
fields the struct literal leaves out keep their zero values. -/
def waitProjectDeletedConf (timeout : Int) : StateChangeConf :=
  { pending := [ProjectStatusDeleting, ProjectStatusActive]
    target := []
    timeout := timeout
    notFoundChecks := 0
    continuousTargetOccurence := 0 }

/-- Go `waitProjectCreated`: run the external poller on that
configuration (the callers discard the returned object). -/
def waitProjectCreated (env : Env) (domain identifier : String) (timeout : Int) : Except ApiError Unit :=
  env.wait (waitProjectCreatedConf timeout) domain identifier

/-- Go `waitProjectUpdated`. -/
def waitProjectUpdated (env : Env) (domain identifier : String) (timeout : Int) : Except ApiError Unit :=
  env.wait (waitProjectUpdatedConf timeout) domain identifier

/-- Go `waitProjectDeleted`. -/
def waitProjectDeleted (env : Env) (domain identifier : String) (timeout : Int) : Except ApiError Unit :=
  env.wait (waitProjectDeletedConf timeout) domain identifier

/-- Option String to framework string value (nil pointer flattens to
null). -/
def optTString : Option String → TString
  | none => .null
  | some s => .value s

/-- Go `flex.Flatten(ctx, out, &rec)`: copy the same-named response fields
into the record (the `timeouts` and `skip_deletion_check` attributes have
no response counterpart and are untouched; the empty enum string flattens
to a null status). -/
def flattenProject (out : ProjectOutput) (rec : resourceProjectData) : resourceProjectData :=
  { rec with
    createdAt := optTString out.createdAt
    createdBy := optTString out.createdBy
    description := optTString out.description
    domainId := optTString out.domainId
    failureReasons := match out.failureReasons with
      | none => .null
      | some xs => .value xs
    glossaryTerms := match out.glossaryTerms with
      | none => .null
      | some xs => .value (xs.map TString.value)
    id := optTString out.id
    lastUpdatedAt := optTString out.lastUpdatedAt
    name := optTString out.name
    projectStatus := if out.projectStatus = "" then .null else .value out.projectStatus }

/-- What one `Create` invocation did: the diagnostics raised, the
`CreateProjectInput` sent (none when no create call was issued), and the
record stored into state (none when the handler returned early). -/
structure CreateResult where
  diags : List Diag
  sentCreate : Option CreateProjectInput
  stored : Option resourceProjectData
deriving DecidableEq, Repr

/-- The `GetDomainInput` that `Create` builds from the plan. -/
def getDomainInputOf (plan : resourceProjectData) : GetDomainInput :=
  { identifier := plan.domainId.valueStringPointer }

/-- The `CreateProjectInput` that `Create` builds: the name always, the
description, domain identifier and glossary terms only when the plan
value is not null. -/
def createProjectInputOf (plan : resourceProjectData) : CreateProjectInput :=
  { name := some plan.name.valueString
    description := if ¬plan.description.isNull then some plan.description.valueString else none
    domainIdentifier := if ¬plan.domainId.isNull then some plan.domainId.valueString else none
    glossaryTerms := if ¬plan.glossaryTerms.isNull then expandFrameworkStringList plan.glossaryTerms else none }

/-- Go `resourceProject.Create`: validate the parent domain with
`GetDomain`; build the `CreateProjectInput` from the non-null plan fields;
reject a failed call, a nil response or a response with non-nil
`FailureReasons` (the Go condition `out == nil || !(out.FailureReasons ==
nil)`); flatten the response into the plan, wait for the ACTIVE status,
and store the flattened plan. -/
def resourceProject.Create (r : resourceProject) (env : Env) (plan : resourceProjectData) : CreateResult :=
  match env.getDomain (getDomainInputOf plan) with
  | .error e =>
      { diags := [⟨problemStandardMessage ErrActionCreating ResNameProject plan.name.goString (some e.message), e.message⟩]
        sentCreate := none
        stored := none }
  | .ok _ =>
      let inp := createProjectInputOf plan
      match env.createProject inp with
      | .error e =>
          { diags := [⟨problemStandardMessage ErrActionCreating ResNameProject plan.name.goString (some e.message), e.message⟩]
            sentCreate := some inp
            stored := none }
      | .ok none =>
          { diags := [⟨problemStandardMessage ErrActionCreating ResNameProject plan.name.goString none, "failure reasons populated"⟩]
            sentCreate := some inp
            stored := none }
      | .ok (some o) =>
          if ¬(o.failureReasons = none) then
            { diags := [⟨problemStandardMessage ErrActionCreating ResNameProject plan.name.goString none, "failure reasons populated"⟩]
              sentCreate := some inp
              stored := none }
          else
            let plan1 := flattenProject o plan
            match waitProjectCreated env plan1.domainId.valueString plan1.id.valueString (r.CreateTimeout plan1.timeouts) with
            | .error e =>
                { diags := [⟨problemStandardMessage ErrActionWaitingForCreation ResNameProject plan1.name.goString (some e.message), e.message⟩]
                  sentCreate := some inp
                  stored := none }
            | .ok _ =>
                { diags := [], sentCreate := some inp, stored := some plan1 }

/-- What one `Read` invocation did: the diagnostics raised, whether
`resp.State.RemoveResource` ran, and the refreshed record stored (none
when the stored state was left unchanged). -/
structure ReadResult where
  diags : List Diag
  removed : Bool
  newState : Option resourceProjectData
deriving DecidableEq, Repr

/-- The `GetProjectInput` that `Read` builds from the state
identifiers. -/
def getProjectInputOf (state : resourceProjectData) : GetProjectInput :=
  { domainIdentifier := state.domainId.valueStringPointer
    identifier := state.id.valueStringPointer }

/-- Go `resourceProject.Read`: issue `GetProject` keyed by the state
identifiers; on a not-found error remove the resource from state; on any
other error raise a diagnostic; otherwise flatten the response into the
state record and store it.  A nil response with a nil error makes the
flatten step fail, raising a diagnostic and storing nothing. -/
def resourceProject.Read (env : Env) (state : resourceProjectData) : ReadResult :=
  match env.getProject (getProjectInputOf state) with
  | .error e =>
      if e.notFound then { diags := [], removed := true, newState := none }
      else
        { diags := [⟨problemStandardMessage ErrActionSetting ResNameProject state.id.goString (some e.message), e.message⟩]
          removed := false
          newState := none }
  | .ok none =>
      { diags := [⟨"flatten error", "nil source"⟩], removed := false, newState := none }
  | .ok (some out) =>
      { diags := [], removed := false, newState := some (flattenProject out state) }

/-- What one `Update` invocation did: the diagnostics raised, the
`UpdateProjectInput` sent (none when no update call was issued), and the
record stored into state (none when the stored state was left
unchanged). -/
structure UpdateResult where
  diags : List Diag
  sentUpdate : Option UpdateProjectInput
  newState : Option resourceProjectData
deriving DecidableEq, Repr

/-- The diagnostic `Update` raises when the plan changes `domain_id`. -/
def domainChangedDiag (planId : TString) : Diag :=
  ⟨problemStandardMessage ErrActionUpdating ResNameProject planId.goString none,
    "domain_id should not change with updates"⟩

/-- Go `resourceProject.Update`: reject a changed `domain_id`; build the
`UpdateProjectInput` with the identifiers and, under the per-field
conditions of the source, the glossary terms, description and name; issue
`UpdateProject`; reject a failed call or nil response; wait for the ACTIVE
status; flatten the response into the prior state and store it. -/
def resourceProject.Update (r : resourceProject) (env : Env) (plan state : resourceProjectData) : UpdateResult :=
  if ¬(plan.domainId = state.domainId) then
    { diags := [domainChangedDiag plan.id], sentUpdate := none, newState := none }
  else
    let inp0 : UpdateProjectInput :=
      { domainIdentifier := some plan.domainId.valueString
        identifier := some plan.id.valueString
        description := none
        glossaryTerms := none
        name := none }
    let inp1 :=
      if plan.glossaryTerms.isNull then
        if ¬(plan.glossaryTerms = state.glossaryTerms) then
          { inp0 with glossaryTerms := expandFrameworkStringList plan.glossaryTerms }
        else inp0
      else inp0
    let inp2 :=
      if ¬plan.description.isNull then
        if ¬(plan.description.valueString = state.description.valueString) then
          { inp1 with description := some plan.description.valueString }
        else inp1
      else inp1
    let inp3 :=
      if ¬plan.name.isNull then
        if ¬(plan.name = state.name) then
          { inp2 with name := some plan.name.valueString }
        else inp2
      else inp2
    match env.updateProject inp3 with
    | .error e =>
        { diags := [⟨problemStandardMessage ErrActionUpdating ResNameProject plan.id.goString (some e.message), e.message⟩]
          sentUpdate := some inp3
          newState := none }
    | .ok none =>
        { diags := [⟨problemStandardMessage ErrActionUpdating ResNameProject plan.id.goString none, "empty output from project update"⟩]
          sentUpdate := some inp3
          newState := none }
    | .ok (some out) =>
        match waitProjectUpdated env plan.domainId.valueString plan.id.valueString (r.UpdateTimeout plan.timeouts) with
        | .error e =>
            { diags := [⟨problemStandardMessage ErrActionWaitingForUpdate ResNameProject plan.id.goString (some e.message), e.message⟩]
              sentUpdate := some inp3
              newState := none }
        | .ok _ =>
            { diags := [], sentUpdate := some inp3, newState := some (flattenProject out state) }

/-- What one `Delete` invocation did: the diagnostics raised and whether
the deletion wait ran.  `none` models the runtime fault of dereferencing a
nil `ValueStringPointer` while building the request. -/
structure DeleteOutcome where
  diags : List Diag
  waitRan : Bool
deriving DecidableEq, Repr

/-- Go `resourceProject.Delete`: build the `DeleteProjectInput` by
dereferencing the state identifier pointers (a null identifier faults);
issue `DeleteProject`, treating a not-found or access-denied error as
success without waiting; otherwise wait for deletion, treating an
access-denied wait error as success and raising a diagnostic for any
other error.
`deleteProjectInputOf` is the `DeleteProjectInput` built from the
dereferenced identifier pointers `d` and `i` and the optional deletion
check flag. -/
def deleteProjectInputOf (state : resourceProjectData) (d i : String) : DeleteProjectInput :=
  { domainIdentifier := some d
    identifier := some i
    skipDeletionCheck := if ¬state.skipDeletionCheck.isNull then state.skipDeletionCheck.valueBoolPointer else none }

/-- Go `resourceProject.Delete` (see the comment above). -/
def resourceProject.Delete (r : resourceProject) (env : Env) (state : resourceProjectData) : Option DeleteOutcome :=
  match state.domainId.valueStringPointer, state.id.valueStringPointer with
  | some d, some i =>
      match env.deleteProject (deleteProjectInputOf state d i) with
      | .error e =>
          if e.isResourceNotFound || e.isAccessDenied then
            some { diags := [], waitRan := false }
          else
            some { diags := [⟨problemStandardMessage ErrActionDeleting ResNameProject state.id.goString (some e.message), e.message⟩]
                   waitRan := false }
      | .ok _ =>
          match waitProjectDeleted env state.domainId.valueString state.id.valueString (r.DeleteTimeout state.timeouts) with
          | .error e =>
              if ¬e.isAccessDenied then
                some { diags := [⟨problemStandardMessage ErrActionWaitingForDeletion ResNameProject state.id.goString (some e.message), e.message⟩]
                       waitRan := true }
              else
                some { diags := [], waitRan := true }
          | .ok _ => some { diags := [], waitRan := true }
  | _, _ => none

/-- Go `strings.Split(s, sep)` for a one-character separator, on the
character list of the string: the text between consecutive separators, in
order, empty parts kept.  The result is never empty. -/
def splitChar (sep : Char) : List Char → List (List Char)
  | [] => [[]]
  | c :: cs =>
      match splitChar sep cs with
      | [] => [[]]
      | p :: ps => if c = sep then [] :: p :: ps else (c :: p) :: ps

/-- What one `ImportState` invocation did: the diagnostics raised and the
two attribute writes.  The attribute values are the total-embedding view
of the Go expressions `parts[0]` and `parts[1]`: `none` is an
out-of-bounds index, which in Go is a runtime panic. -/
structure ImportResult where
  diags : List Diag
  domainIdAttr : Option String
  idAttr : Option String
deriving DecidableEq, Repr

/-- The diagnostic `ImportState` raises for an import identifier that does
not split into exactly two parts. -/
def importInvalidIdDiag (id : String) : Diag :=
  ⟨"Resource Import Invalid ID",
    "Unexpected format for import ID (" ++ id ++ "), use: \"DomainIdentifier:Id\""⟩

/-- Go `resourceProject.ImportState`: split the import identifier on
`":"`; raise a format diagnostic when the split does not have exactly two
parts; then, unconditionally, write `parts[0]` to the `domain_id`
attribute and `parts[1]` to the `id` attribute. -/
def resourceProject.ImportState (id : String) : ImportResult :=
  let parts := splitChar ':' id.data
  { diags := if ¬(parts.length = 2) then [importInvalidIdDiag id] else []
    domainIdAttr := (parts.get? 0).map List.asString
    idAttr := (parts.get? 1).map List.asString }

end datazone

namespace elasticsearch

/-- Go `aws.FIPSEndpointState`. -/
inductive FIPSEndpointState where
  | unset
  | enabled
  | disabled
deriving DecidableEq, Repr

/-- The fields of the SDK `elasticsearchservice.Options` that
`servicePackage.NewClient` touches. -/
structure ClientOptions where
  baseEndpoint : Option String
  useFIPSEndpoint : FIPSEndpointState
deriving DecidableEq, Repr

/-- The entries of the configuration bag that `servicePackage.NewClient`
reads: the endpoint override string (empty when not configured). -/
structure ClientConfig where
  endpoint : String
deriving DecidableEq, Repr

/-- Go `servicePackage.NewClient` for the elasticsearch service package:
the options mutator it passes to `NewFromConfig`, applied to the options
the SDK resolved from the AWS config.  A non-empty configured endpoint is
set as the base endpoint and, when the FIPS endpoint setting was enabled,
that setting is forced back to disabled; an empty endpoint entry changes
nothing. -/
def NewClient (config : ClientConfig) (o : ClientOptions) : ClientOptions :=
  if ¬(config.endpoint = "") then
    let o1 := { o with baseEndpoint := some config.endpoint }
    if o1.useFIPSEndpoint = .enabled then
      { o1 with useFIPSEndpoint := .disabled }
    else o1
  else o

end elasticsearch

namespace datazone

/-- A concrete plan record for evaluating the handlers: a known domain and
project identifier, a known name, one glossary term, everything else
unset. -/
def examplePlanData : resourceProjectData :=
  { description := .null
    domainId := .value "dzd-abc"
    name := .value "proj"
    createdBy := .null
    id := .value "prj-1"
    createdAt := .null
    failureReasons := .null
    lastUpdatedAt := .null
    projectStatus := .null
    timeouts := { create := none, update := none, delete := none }
    skipDeletionCheck := .null
    glossaryTerms := .value [.value "term1"] }

/-- A concrete prior-state record: as `examplePlanData` but with no
glossary terms, so the plan changes exactly the `glossary_terms`
attribute. -/
def exampleStateData : resourceProjectData :=
  { examplePlanData with glossaryTerms := .null }

/-- A concrete remote response for the example project. -/
def exampleOutput : ProjectOutput :=
  { createdAt := none
    createdBy := none
    description := none
    domainId := some "dzd-abc"
    failureReasons := none
    glossaryTerms := none
    id := some "prj-1"
    lastUpdatedAt := none
    name := some "proj"
    projectStatus := ProjectStatusActive }

/-- A scripted environment where every remote call succeeds and returns
the example project. -/
def exampleEnv : Env :=
  { getDomain := fun _ => .ok ()
    createProject := fun _ => .ok (some exampleOutput)
    getProject := fun _ => .ok (some exampleOutput)
    updateProject := fun _ => .ok (some exampleOutput)
    deleteProject := fun _ => .ok ()
    wait := fun _ _ _ => .ok () }

/-- A scripted environment where `DeleteProject` fails with the SDK
not-found exception. -/
def exampleDeleteGoneEnv : Env :=
  { exampleEnv with deleteProject := fun _ => .error (.resourceNotFound "gone") }

/-- A scripted environment where `GetProject` fails with an access-denied
error, for exercising the hard-failure paths. -/
def exampleDeniedEnv : Env :=
  { exampleEnv with getProject := fun _ => .error (.accessDenied "denied") }

end datazone



namespace datazone

theorem splitChar_ne_nil (sep : Char) (l : List Char) : ¬(splitChar sep l = []) := by
  cases l with
  | nil => simp [splitChar]
  | cons c cs =>
    simp only [splitChar]
    cases splitChar sep cs with
    | nil => simp
    | cons p ps => by_cases h : c = sep <;> simp [h]

theorem count_cons_char (c sep : Char) (cs : List Char) :
    (c :: cs).count sep = cs.count sep + (if c = sep then 1 else 0) := by
  by_cases h : c = sep <;> simp [List.count_cons, h]

theorem length_splitChar (sep : Char) (l : List Char) :
    (splitChar sep l).length = l.count sep + 1 := by
  induction l with
  | nil => simp [splitChar]
  | cons c cs ih =>
    simp only [splitChar]
    cases h : splitChar sep cs with
    | nil => exact absurd h (splitChar_ne_nil sep cs)
    | cons p ps =>
      rw [h] at ih
      rw [count_cons_char]
      simp only [List.length_cons] at ih
      by_cases hc : c = sep <;> simp [hc] <;> omega

theorem splitChar_count_zero (sep : Char) (l : List Char) (h : l.count sep = 0) :
    splitChar sep l = [l] := by
  induction l with
  | nil => simp [splitChar]
  | cons c cs ih =>
    have hc : ¬(c = sep) := by
      intro hEq
      subst hEq
      simp [List.count_cons] at h
    have hcs : cs.count sep = 0 := by
      simp [List.count_cons, hc] at h
      omega
    simp [splitChar, ih hcs, hc]

theorem asString_data (s : String) : s.data.asString = s := rfl

theorem splitChar_count_one (sep : Char) (l : List Char) (h : l.count sep = 1) :
    ∃ a b, splitChar sep l = [a, b] ∧ l = a ++ sep :: b := by
  induction l with
  | nil => simp at h
  | cons c cs ih =>
    by_cases hc : c = sep
    · subst hc
      have hcs : cs.count c = 0 := by
        simp [List.count_cons] at h
        omega
      exact ⟨[], cs, by simp [splitChar, splitChar_count_zero c cs hcs], rfl⟩
    · have hcs : cs.count sep = 1 := by
        simpa [List.count_cons, hc] using h
      obtain ⟨a, b, hsp, hl⟩ := ih hcs
      exact ⟨c :: a, b, by simp [splitChar, hsp, hc], by simp [hl]⟩

/-- C3: an import identifier with exactly one `:` delimiter is split into
exactly two parts, the first written to the `domain_id` attribute and the
second to the `id` attribute, with no diagnostic; any other delimiter
count raises the format diagnostic naming the expected
"DomainIdentifier:Id" form. -/
theorem importState_split_spec (s : String) :
    (s.data.count ':' = 1 →
      (resourceProject.ImportState s).diags = [] ∧
      ∃ a b : List Char,
        (resourceProject.ImportState s).domainIdAttr = some a.asString ∧
        (resourceProject.ImportState s).idAttr = some b.asString ∧
        a ++ ':' :: b = s.data) ∧
    (¬(s.data.count ':' = 1) →
      (resourceProject.ImportState s).diags = [importInvalidIdDiag s]) := by
  constructor
  · intro h1
    obtain ⟨a, b, hsp, hl⟩ := splitChar_count_one ':' s.data h1
    refine ⟨?_, a, b, ?_, ?_, hl.symm⟩ <;>
      simp [resourceProject.ImportState, hsp]
  · intro hne
    have hlen : ¬((splitChar ':' s.data).length = 2) := by
      rw [length_splitChar]
      omega
    simp [resourceProject.ImportState, hlen]

/-- C4: for an import identifier containing no `:` the handler records the
format diagnostic and still evaluates both indexing expressions; the
split has one part, so `parts[0]` is the whole identifier and the
total-embedding access behind the `id` attribute takes its error branch
(`none`), the Go counterpart of an out-of-bounds panic. -/
theorem importState_no_delimiter_out_of_bounds (s : String) :
    s.data.count ':' = 0 →
      (resourceProject.ImportState s).diags = [importInvalidIdDiag s] ∧
      (resourceProject.ImportState s).domainIdAttr = some s ∧
      (resourceProject.ImportState s).idAttr = none := by
  intro h
  have hsp := splitChar_count_zero ':' s.data h
  refine ⟨?_, ?_, ?_⟩ <;> simp [resourceProject.ImportState, hsp, asString_data]

/-- Witness for C4 at the delimiter-free identifier "abc". -/
theorem importState_no_delimiter_out_of_bounds_witness :
    (resourceProject.ImportState "abc").diags = [importInvalidIdDiag "abc"] ∧
    (resourceProject.ImportState "abc").domainIdAttr = some "abc" ∧
    (resourceProject.ImportState "abc").idAttr = none :=
  importState_no_delimiter_out_of_bounds "abc" (by decide)

end datazone

namespace datazone

theorem update_sentUpdate_isSome (r : resourceProject) (env : Env)
    (plan state : resourceProjectData) (hd : plan.domainId = state.domainId) :
    (resourceProject.Update r env plan state).sentUpdate.isSome = true := by
  unfold resourceProject.Update
  rw [if_neg (fun hn => hn hd)]
  dsimp only
  split <;> first | rfl | (split <;> rfl)

/-- C1: the Update handler rejects the plan with the diagnostic naming
`domain_id`, sending no `UpdateProject` request and leaving the stored
state unchanged, exactly when the plan `domain_id` differs from the prior
state `domain_id`. -/
theorem update_rejected_iff_domain_changed (r : resourceProject) (env : Env)
    (plan state : resourceProjectData) :
    ¬(plan.domainId = state.domainId) ↔
      resourceProject.Update r env plan state =
        { diags := [domainChangedDiag plan.id], sentUpdate := none, newState := none } := by
  by_cases hd : plan.domainId = state.domainId
  · refine iff_of_false (fun hn => hn hd) (fun hcontra => ?_)
    have h1 := update_sentUpdate_isSome r env plan state hd
    rw [hcontra] at h1
    simp at h1
  · refine iff_of_true hd ?_
    unfold resourceProject.Update
    rw [if_pos hd]

/-- C2 fails on the code: in this plan/state pair only `glossary_terms`
changed (non-null in the plan, null in the prior state), the update is
accepted and an `UpdateProjectInput` is sent, yet the changed field is
omitted from the request, because the glossary-terms branch of the source
only fires when the plan list is null. -/
theorem update_omits_changed_glossary_terms :
    ¬(examplePlanData.glossaryTerms = exampleStateData.glossaryTerms) ∧
    (resourceProject.Update newResourceProject exampleEnv examplePlanData exampleStateData).sentUpdate =
      some { domainIdentifier := some "dzd-abc"
             identifier := some "prj-1"
             description := none
             glossaryTerms := none
             name := none } :=
  ⟨by decide, by rfl⟩

end datazone

namespace datazone

/-- C5: a Delete whose `DeleteProject` call fails with the not-found or
access-denied exception returns success with no diagnostics and without
waiting; when the call succeeds, an access-denied wait error is likewise
tolerated; any other delete or wait error is surfaced as a diagnostic. -/
theorem delete_error_tolerance (r : resourceProject) (env : Env)
    (state : resourceProjectData) (d i : String)
    (hd : state.domainId.valueStringPointer = some d)
    (hi : state.id.valueStringPointer = some i) :
    (∀ e, env.deleteProject (deleteProjectInputOf state d i) = .error e →
      ((e.isResourceNotFound || e.isAccessDenied) = true →
        resourceProject.Delete r env state = some { diags := [], waitRan := false }) ∧
      ((e.isResourceNotFound || e.isAccessDenied) = false →
        resourceProject.Delete r env state =
          some { diags := [⟨problemStandardMessage ErrActionDeleting ResNameProject state.id.goString (some e.message), e.message⟩]
                 waitRan := false })) ∧
    (env.deleteProject (deleteProjectInputOf state d i) = .ok () →
      (∀ e, waitProjectDeleted env state.domainId.valueString state.id.valueString
            (r.DeleteTimeout state.timeouts) = .error e →
        (e.isAccessDenied = true →
          resourceProject.Delete r env state = some { diags := [], waitRan := true }) ∧
        (e.isAccessDenied = false →
          resourceProject.Delete r env state =
            some { diags := [⟨problemStandardMessage ErrActionWaitingForDeletion ResNameProject state.id.goString (some e.message), e.message⟩]
                   waitRan := true })) ∧
      (waitProjectDeleted env state.domainId.valueString state.id.valueString
          (r.DeleteTimeout state.timeouts) = .ok () →
        resourceProject.Delete r env state = some { diags := [], waitRan := true })) := by
  refine ⟨fun e he => ⟨fun hok => ?_, fun hbad => ?_⟩,
    fun hok => ⟨fun e he2 => ⟨fun had => ?_, fun hnad => ?_⟩, fun hwok => ?_⟩⟩ <;>
    simp [resourceProject.Delete, hd, hi, *]

/-- Witness for C5: with a scripted not-found response from
`DeleteProject`, Delete succeeds with no diagnostics and no wait. -/
theorem delete_error_tolerance_witness :
    resourceProject.Delete newResourceProject exampleDeleteGoneEnv exampleStateData =
      some { diags := [], waitRan := false } :=
  ((delete_error_tolerance newResourceProject exampleDeleteGoneEnv exampleStateData
      "dzd-abc" "prj-1" rfl rfl).1 (.resourceNotFound "gone") rfl).1 rfl

/-- C6: a Read whose `GetProject` call reports the object as absent
removes the local record with no diagnostics; any other error aborts with
a diagnostic and stores nothing; a successful response is flattened into
the state record and stored. -/
theorem read_state_transitions (env : Env) (state : resourceProjectData) :
    (∀ e, env.getProject (getProjectInputOf state) = .error e →
      (e.notFound = true →
        resourceProject.Read env state = { diags := [], removed := true, newState := none }) ∧
      (e.notFound = false →
        (resourceProject.Read env state).removed = false ∧
        (resourceProject.Read env state).newState = none ∧
        ¬((resourceProject.Read env state).diags = []))) ∧
    (∀ out, env.getProject (getProjectInputOf state) = .ok (some out) →
      resourceProject.Read env state =
        { diags := [], removed := false, newState := some (flattenProject out state) }) := by
  constructor
  · intro e he
    constructor <;> intro hnf <;> simp [resourceProject.Read, he, hnf]
  · intro out hout
    simp [resourceProject.Read, hout]

/-- C7: Create validates the parent domain first and aborts with a
diagnostic, sending no `CreateProject` request, when that check fails;
after the create call it aborts with a diagnostic rather than storing
state whenever the response is nil or carries a non-nil failure-reasons
field. -/
theorem create_validates_and_rejects (r : resourceProject) (env : Env)
    (plan : resourceProjectData) :
    (∀ e, env.getDomain (getDomainInputOf plan) = .error e →
      (resourceProject.Create r env plan).sentCreate = none ∧
      (resourceProject.Create r env plan).stored = none ∧
      ¬((resourceProject.Create r env plan).diags = [])) ∧
    (env.getDomain (getDomainInputOf plan) = .ok () →
      ∀ res, env.createProject (createProjectInputOf plan) = .ok res →
        (res = none ∨ ∃ o, res = some o ∧ ¬(o.failureReasons = none)) →
        (resourceProject.Create r env plan).stored = none ∧
        ¬((resourceProject.Create r env plan).diags = [])) := by
  constructor
  · intro e he
    refine ⟨?_, ?_, ?_⟩ <;> simp [resourceProject.Create, he]
  · intro hok res hres hfail
    rcases hfail with hnone | ⟨o, ho, hfr⟩
    · subst hnone
      refine ⟨?_, ?_⟩ <;> simp [resourceProject.Create, hok, hres]
    · subst ho
      refine ⟨?_, ?_⟩ <;> simp [resourceProject.Create, hok, hres, hfr]

/-- C8: the refresh function maps a not-found outcome of the describe
call to the absent result; any other error — including a successful
response that is nil or carries failure reasons, which `findProjectByID`
converts to an empty-result error — to a hard failure; and otherwise
reports the object with its status string. -/
theorem statusProject_refresh_mapping (env : Env) (domain identifier : String) :
    (∀ e, env.getProject { domainIdentifier := some domain, identifier := some identifier } = .error e →
      (e.notFound = true →
        statusProject env domain identifier = { obj := none, status := "", err := none }) ∧
      (e.notFound = false →
        statusProject env domain identifier = { obj := none, status := "", err := some e })) ∧
    (env.getProject { domainIdentifier := some domain, identifier := some identifier } = .ok none →
      statusProject env domain identifier =
        { obj := none, status := "", err := some (.emptyResult "empty result") }) ∧
    (∀ o, env.getProject { domainIdentifier := some domain, identifier := some identifier } = .ok (some o) →
      (¬(o.failureReasons = none) →
        statusProject env domain identifier =
          { obj := none, status := "", err := some (.emptyResult "empty result") }) ∧
      (o.failureReasons = none →
        statusProject env domain identifier =
          { obj := some o, status := o.projectStatus, err := none })) := by
  refine ⟨?_, ?_, ?_⟩
  · intro e he
    constructor <;> intro hnf <;>
      cases e <;>
      simp_all [statusProject, findProjectByID, ApiError.notFound,
        ApiError.isResourceNotFound, ApiError.message]
  · intro hnone
    simp [statusProject, findProjectByID, hnone, ApiError.notFound]
  · intro o ho
    constructor <;> intro hfr <;>
      simp [statusProject, findProjectByID, ho, hfr, ApiError.notFound]

/-- C9: the create and update waits target exactly the single ACTIVE
status with an empty pending set and two required consecutive target
observations, each under the timeout handed to it; the delete wait treats
DELETING and ACTIVE as pending with an empty target set; and the
registered defaults are 3 minutes for create, 30 for update, 3 for
delete. -/
theorem wait_configurations :
    (∀ t : Int,
      waitProjectCreatedConf t =
        { pending := [], target := [ProjectStatusActive], timeout := t
          notFoundChecks := 20, continuousTargetOccurence := 2 } ∧
      waitProjectUpdatedConf t =
        { pending := [], target := [ProjectStatusActive], timeout := t
          notFoundChecks := 20, continuousTargetOccurence := 2 } ∧
      waitProjectDeletedConf t =
        { pending := [ProjectStatusDeleting, ProjectStatusActive], target := [], timeout := t
          notFoundChecks := 0, continuousTargetOccurence := 0 }) ∧
    newResourceProject.defaultCreateTimeout = 3 * timeMinute ∧
    newResourceProject.defaultUpdateTimeout = 30 * timeMinute ∧
    newResourceProject.defaultDeleteTimeout = 3 * timeMinute :=
  ⟨fun _ => ⟨rfl, rfl, rfl⟩, rfl, rfl, rfl⟩

end datazone

namespace elasticsearch

/-- C10: a non-empty configured endpoint is installed as the client base
endpoint and an enabled FIPS-endpoint setting is forced to disabled (an
already not-enabled setting is untouched); an empty endpoint entry leaves
the options unmodified. -/
theorem newClient_endpoint_override (config : ClientConfig) (o : ClientOptions) :
    (¬(config.endpoint = "") →
      (NewClient config o).baseEndpoint = some config.endpoint ∧
      (o.useFIPSEndpoint = .enabled →
        (NewClient config o).useFIPSEndpoint = .disabled) ∧
      (¬(o.useFIPSEndpoint = .enabled) →
        (NewClient config o).useFIPSEndpoint = o.useFIPSEndpoint)) ∧
    (config.endpoint = "" → NewClient config o = o) := by
  constructor
  · intro hne
    refine ⟨?_, fun h => ?_, fun h => ?_⟩
    · simp only [NewClient, if_pos hne]
      split <;> rfl
    · simp [NewClient, hne, h]
    · simp [NewClient, hne, h]
  · intro he
    simp [NewClient, he]

end elasticsearch
